import Mathlib

/-!
Verification of the alert lifecycle engine of the calm tornado-alert speaker
daemon: a shallow embedding of `src/deduplication.js`, `src/alertProcessor.js`,
`src/poller.js` and the orchestrator in `src/index.js`, together with proofs of
the behavioural properties claimed for them.
-/

namespace TornadoAlerts

/-! ## JSON values

The dedup store persists its state as JSON (`JSON.stringify([...set])`) and
reloads it with `JSON.parse`.  We model the structured values those functions
exchange.  A JavaScript `Set` compares members with SameValueZero: primitives
by value, objects and arrays by reference — and every array/object produced by
`JSON.parse` is a fresh reference, so two composite values are never equal as
`Set` members.  A `Set` is modelled as an insertion-ordered list of values with
that comparison. -/

/-- Structured JSON-like values as produced by `JSON.parse`. -/
inductive Json where
  | str : String → Json
  | num : Int → Json
  | bool : Bool → Json
  | null : Json
  | arr : List Json → Json
  | obj : List (String × Json) → Json

/-- SameValueZero over freshly parsed JSON values: primitives compare by
value; arrays and objects are distinct references, hence never equal. -/
def jsSameValueZero : Json → Json → Bool
  | .str a, .str b => a == b
  | .num a, .num b => a == b
  | .bool a, .bool b => a == b
  | .null, .null => true
  | _, _ => false

/-- `Set.prototype.has`. -/
def jsMem (x : Json) (s : List Json) : Bool :=
  s.any (jsSameValueZero x)

/-- `Set.prototype.add`: a no-op when the value is already a member, otherwise
appended at the end (insertion order is preserved). -/
def jsSetInsert (x : Json) (s : List Json) : List Json :=
  if jsMem x s then s else s ++ [x]

/-- `new Set(array)`: collects the elements of `array` in order, keeping the
first occurrence of each member. -/
def jsSetOfList (l : List Json) : List Json :=
  l.foldl (fun s x => jsSetInsert x s) []

/-! ## Dedup store (`src/deduplication.js`)

The in-memory state is the module-level `spokenAlertIds : Set`.  Storage is
modelled by the distinct ways `readFileSync`/`JSON.parse` can behave: the file
may be absent (read throws `ENOENT`), unreadable (read throws), hold text that
is not valid JSON (parse throws), or hold a parsed JSON value. -/

/-- The possible contents of the dedup storage location. -/
inductive Storage where
  | absent
  | unreadable
  | invalidJson
  | content : Json → Storage

/-- `Array.isArray`. -/
def isJsonArray : Json → Bool
  | .arr _ => true
  | _ => false

/-- `loadSpokenAlerts()`: reads and parses the dedup file; any exception is
caught and the set starts fresh; a parsed non-array is replaced by `[]`.
Total — no exception escapes to the caller. -/
def loadSpokenAlerts : Storage → List Json
  | .absent => []
  | .unreadable => []
  | .invalidJson => []
  | .content j =>
    match j with
    | .arr ids => jsSetOfList ids
    | _ => jsSetOfList []

/-- `saveSpokenAlerts()`: serialises the current set, `[...spokenAlertIds]`,
as a JSON array. -/
def saveSpokenAlerts (spokenAlertIds : List Json) : Json :=
  .arr spokenAlertIds

/-- `hasBeenSpoken(alertId)`: membership test in the in-memory set. -/
def hasBeenSpoken (alertId : String) (spokenAlertIds : List Json) : Bool :=
  jsMem (.str alertId) spokenAlertIds

/-- `markAsSpoken(alertId)`: adds the id to the in-memory set (then persists
via `saveSpokenAlerts`, which affects only storage, not this state). -/
def markAsSpoken (alertId : String) (spokenAlertIds : List Json) : List Json :=
  jsSetInsert (.str alertId) spokenAlertIds

/-! ### Set lemmas -/

theorem jsSameValueZero_eq {x y : Json} (h : jsSameValueZero x y = true) :
    x = y := by
  cases x <;> cases y <;> simp_all [jsSameValueZero]

theorem jsSameValueZero_str (a b : String) :
    jsSameValueZero (.str a) (.str b) = (a == b) := rfl

theorem jsMem_append (x : Json) (s t : List Json) :
    jsMem x (s ++ t) = (jsMem x s || jsMem x t) := by
  simp [jsMem]

theorem jsMem_jsSetInsert (x y : Json) (s : List Json) :
    jsMem x (jsSetInsert y s) = (jsMem x s || jsSameValueZero x y) := by
  unfold jsSetInsert
  by_cases hy : jsMem y s
  · simp only [hy, if_true]
    by_cases hxy : jsSameValueZero x y = true
    · rcases jsSameValueZero_eq hxy with rfl
      simp [hxy, hy]
    · simp [Bool.eq_false_iff.mpr hxy]
  · rw [if_neg hy, jsMem_append]
    simp [jsMem]

theorem jsMem_foldl_jsSetInsert (l : List Json) :
    ∀ (acc : List Json) (x : Json),
      jsMem x (l.foldl (fun s y => jsSetInsert y s) acc) =
        (jsMem x acc || jsMem x l) := by
  induction l with
  | nil => simp [jsMem]
  | cons a t ih =>
    intro acc x
    simp only [List.foldl_cons, ih, jsMem_jsSetInsert]
    simp [jsMem, Bool.or_comm, Bool.or_assoc, Bool.or_left_comm]

theorem jsMem_jsSetOfList (l : List Json) (x : Json) :
    jsMem x (jsSetOfList l) = jsMem x l := by
  unfold jsSetOfList
  rw [jsMem_foldl_jsSetInsert]
  simp [jsMem]

/-! ## Alert features and the warning filter (`src/alertProcessor.js`)

A raw feed entry is a GeoJSON feature with an `id` and a `properties` object.
In a raw response `properties` may be `null`/absent, and any of its fields may
be absent, hence the `Option`s. -/

/-- Metadata of one alert feature; every field may be missing in raw data. -/
structure AlertProperties where
  event : Option String
  areaDesc : Option String
  effective : Option String
  expires : Option String
  headline : Option String
  description : Option String

/-- One raw GeoJSON alert feature from the feed. -/
structure AlertFeature where
  id : String
  properties : Option AlertProperties

/-- The category expression `f.properties?.event` — `none` when `properties`
is null/absent or has no `event` field. -/
def eventOf (f : AlertFeature) : Option String :=
  f.properties.bind AlertProperties.event

/-- `filterTornadoWarnings(features)`: keeps exactly the features whose
`properties?.event` strictly equals the string "Tornado Warning". -/
def filterTornadoWarnings (features : List AlertFeature) : List AlertFeature :=
  features.filter (fun f => eventOf f == some "Tornado Warning")

/-! ## Alert source client (`src/poller.js`)

`fetchAlerts(state, attempt, _delayFn)` performs one `fetch`; a rejected fetch
or a non-2xx response lands in the `catch` block, which gives up with `[]`
after `MAX_RETRIES` retries and otherwise waits `BASE_DELAY_MS * 2^attempt`
and recurses with `attempt + 1`.  The environment is an oracle giving the
outcome of the n-th attempt; the embedding also records how many attempts ran
and which backoff delays were awaited.  It is a total function: no failure
pattern makes it raise. -/

def MAX_RETRIES : Nat := 5

def BASE_DELAY_MS : Nat := 5000

/-- Outcome of one `fetch` of the alerts URL.  `success` carries the parsed
body's `features` field, which may be absent (`data.features ?? []`). -/
inductive FetchOutcome where
  | netError
  | httpError (status : Nat)
  | success (features : Option (List AlertFeature))

/-- True for the outcomes handled by the `catch` block: a rejected `fetch`
(network error) or a response with `!response.ok`. -/
def FetchOutcome.isTransientFailure : FetchOutcome → Bool
  | .netError => true
  | .httpError _ => true
  | .success _ => false

/-- Result of a `fetchAlerts` call: the returned features plus the observable
attempt/delay trace. -/
structure FetchResult where
  features : List AlertFeature
  attempts : Nat
  delays : List Nat

/-- `fetchAlerts(state, attempt)` under outcome oracle `oracle`. -/
def fetchAlerts (oracle : Nat → FetchOutcome) (attempt : Nat) : FetchResult :=
  match oracle attempt with
  | .success features =>
    { features := features.getD [], attempts := 1, delays := [] }
  | _ =>
    if MAX_RETRIES ≤ attempt then
      { features := [], attempts := 1, delays := [] }
    else
      let backoffMs := BASE_DELAY_MS * 2 ^ attempt
      let rest := fetchAlerts oracle (attempt + 1)
      { features := rest.features, attempts := rest.attempts + 1,
        delays := backoffMs :: rest.delays }
termination_by MAX_RETRIES + 1 - attempt
decreasing_by simp [MAX_RETRIES] at *; omega

/-! ### Unfolding lemmas for `fetchAlerts` -/

theorem fetchAlerts_success {oracle : Nat → FetchOutcome} {attempt : Nat}
    {fs : Option (List AlertFeature)} (h : oracle attempt = .success fs) :
    fetchAlerts oracle attempt =
      { features := fs.getD [], attempts := 1, delays := [] } := by
  rw [fetchAlerts, h]

theorem fetchAlerts_fail_exhausted {oracle : Nat → FetchOutcome}
    {attempt : Nat} (h : (oracle attempt).isTransientFailure = true)
    (hmax : MAX_RETRIES ≤ attempt) :
    fetchAlerts oracle attempt =
      { features := [], attempts := 1, delays := [] } := by
  rw [fetchAlerts]
  rcases ho : oracle attempt with _ | st | fs <;>
    simp_all [FetchOutcome.isTransientFailure, hmax]

theorem fetchAlerts_fail_retry {oracle : Nat → FetchOutcome}
    {attempt : Nat} (h : (oracle attempt).isTransientFailure = true)
    (hlt : attempt < MAX_RETRIES) :
    fetchAlerts oracle attempt =
      { features := (fetchAlerts oracle (attempt + 1)).features,
        attempts := (fetchAlerts oracle (attempt + 1)).attempts + 1,
        delays := (BASE_DELAY_MS * 2 ^ attempt) ::
          (fetchAlerts oracle (attempt + 1)).delays } := by
  rw [fetchAlerts]
  have hmax : ¬ MAX_RETRIES ≤ attempt := by omega
  rcases ho : oracle attempt with _ | st | fs <;>
    simp_all [FetchOutcome.isTransientFailure, hmax]

/-! ## Speech gate (`speak` in `src/index.js`)

`speak(message)` compares `Date.now()` against the module-level
`lastSpeechTime`; inside the window the message is silently dropped, otherwise
`lastSpeechTime` is set to `now` *before* `synthesizeSpeech`/`playAudio` run,
and their failure is caught without touching the timestamp.  Timestamps are
integers (milliseconds); the Notifier's outcome is an oracle input. -/

/-- The module-level speech-gate state: `lastSpeechTime` (0 at startup). -/
structure GateState where
  lastSpeechTime : Int
deriving DecidableEq

/-- Outcome of one combined Notifier call (synthesis + playback). -/
inductive NotifierOutcome where
  | success
  | failure
deriving DecidableEq

/-- What one `speak` call did: dropped by the rate limit, or invoked the
Notifier with the given outcome. -/
inductive SpeechEvent where
  | denied
  | spoke (outcome : NotifierOutcome)
deriving DecidableEq

/-- True exactly when the Notifier was invoked. -/
def SpeechEvent.isSpoke : SpeechEvent → Bool
  | .spoke _ => true
  | .denied => false

/-- `speak(message)` at time `now`: returns the new gate state and what
happened.  A denied call returns before any synthesis; an allowed call
stores `now` first and then runs the Notifier, whose failure is caught. -/
def speak (rateLimit : Int) (st : GateState) (now : Int)
    (outcome : NotifierOutcome) : GateState × SpeechEvent :=
  if now - st.lastSpeechTime < rateLimit then
    (st, .denied)
  else
    ({ lastSpeechTime := now }, .spoke outcome)

/-- Runs a sequence of `speak` attempts, each given by its `Date.now()` value
and the Notifier outcome it would observe; returns the final gate state and
the per-attempt log. -/
def runSpeaks (rateLimit : Int) (st : GateState) :
    List (Int × NotifierOutcome) → GateState × List (Int × SpeechEvent)
  | [] => (st, [])
  | (now, o) :: rest =>
    let r := speak rateLimit st now o
    let rr := runSpeaks rateLimit r.1 rest
    (rr.1, (now, r.2) :: rr.2)

/-- The start times of the attempts that were permitted by the gate, in
order. -/
def permittedTimes (log : List (Int × SpeechEvent)) : List Int :=
  (log.filter (fun e => e.2.isSpoke)).map Prod.fst

/-! ## Alert cycle orchestrator (`pollOnce` in `src/index.js`)

One cycle fetches, filters, and then for each warning in order: skips it when
`hasBeenSpoken(warning.id)`, otherwise composes the message, calls `speak`
(gate + Notifier), and finally calls `markAsSpoken(warning.id)` —
unconditionally, whatever `speak` did.  The state a cycle touches is the dedup
set plus the gate state. -/

/-- The orchestrator-visible mutable state. -/
structure AppState where
  spokenAlertIds : List Json
  gate : GateState

/-- Observable processing record of one warning within a cycle. -/
inductive CycleEvent where
  | skippedDup (id : String)
  | rateLimited (id : String)
  | notified (id : String) (outcome : NotifierOutcome)

/-- The body of the `for` loop in `pollOnce` for one warning, given the time
and Notifier outcome its `speak` call would observe. -/
def processWarning (rateLimit : Int) (st : AppState) (w : AlertFeature)
    (now : Int) (outcome : NotifierOutcome) : AppState × CycleEvent :=
  if hasBeenSpoken w.id st.spokenAlertIds then
    (st, .skippedDup w.id)
  else
    let r := speak rateLimit st.gate now outcome
    let spoken := markAsSpoken w.id st.spokenAlertIds
    ({ spokenAlertIds := spoken, gate := r.1 },
     match r.2 with
     | .denied => .rateLimited w.id
     | .spoke o => .notified w.id o)

/-- The `for` loop of `pollOnce` over already-filtered warnings, each paired
with the environment (time, Notifier outcome) its potential `speak` call
would observe. -/
def pollLoop (rateLimit : Int) (st : AppState) :
    List (AlertFeature × Int × NotifierOutcome) → AppState × List CycleEvent
  | [] => (st, [])
  | (w, now, o) :: rest =>
    let r := processWarning rateLimit st w now o
    let rr := pollLoop rateLimit r.1 rest
    (rr.1, r.2 :: rr.2)

/-- `pollOnce()`: fetch (features supplied), filter, then the loop. -/
def pollOnce (rateLimit : Int) (st : AppState) (features : List AlertFeature)
    (env : List (Int × NotifierOutcome)) : AppState × List CycleEvent :=
  pollLoop rateLimit st ((filterTornadoWarnings features).zip env)

/-- A whole run: the cycles executed by `startPolling`, each with the feed
response it saw and the per-warning environment. -/
def runCycles (rateLimit : Int) (st : AppState) :
    List (List AlertFeature × List (Int × NotifierOutcome)) →
      AppState × List CycleEvent
  | [] => (st, [])
  | (features, env) :: rest =>
    let r := pollOnce rateLimit st features env
    let rr := runCycles rateLimit r.1 rest
    (rr.1, r.2 ++ rr.2)

/-- True for the events in which the Notifier was invoked for `id`. -/
def isNotifyFor (id : String) : CycleEvent → Bool
  | .notified i _ => i == id
  | _ => false

/-- Number of Notifier invocations for `id` recorded in a log. -/
def countNotified (id : String) (log : List CycleEvent) : Nat :=
  (log.filter (isNotifyFor id)).length

/-! ## Shutdown (`shutdown` in `src/index.js`)

The handler for SIGTERM/SIGINT sets `isShuttingDown`, clears `pollTimer` when
one is pending, and then calls `process.exit(0)` synchronously — whatever the
orchestrator is doing at that moment.  The runtime state records the current
cycle phase and whether a Notifier call is in flight; `shutdown` reads
neither. -/

/-- Phases of the orchestrator state machine. -/
inductive OrchPhase where
  | idle
  | fetching
  | processing
  | sleeping
  | shuttingDown
deriving DecidableEq

/-- Runtime state visible to the shutdown handler: the two module-level flags
it writes, plus the phase of the in-flight cycle, whether a Notifier call is
currently awaited, and the process exit status once `process.exit` ran. -/
structure OrchState where
  isShuttingDown : Bool
  pollTimer : Bool
  phase : OrchPhase
  notifierInFlight : Bool
  exited : Option Nat
deriving DecidableEq

/-- `shutdown()`: sets the flag, clears any pending timer, and exits with
status 0 immediately — it neither waits for `notifierInFlight` nor checks
`phase`. -/
def shutdown (st : OrchState) : OrchState :=
  { st with isShuttingDown := true, pollTimer := false, exited := some 0 }

/-- A SIGTERM delivered while `pollOnce` is awaiting the Notifier: the cycle
is in `processing` and the Notifier call is in flight. -/
def midSpeechState : OrchState :=
  { isShuttingDown := false, pollTimer := false, phase := .processing,
    notifierInFlight := true, exited := none }

/-! ## Further set lemmas -/

theorem jsSameValueZero_comm (x y : Json) :
    jsSameValueZero x y = jsSameValueZero y x := by
  cases x <;> cases y <;> simp [jsSameValueZero] <;>
    simp [beq_iff_eq, eq_comm]

theorem jsSameValueZero_str_self (a : String) :
    jsSameValueZero (.str a) (.str a) = true := by
  simp [jsSameValueZero]

theorem hasBeenSpoken_markAsSpoken_self (id : String) (s : List Json) :
    hasBeenSpoken id (markAsSpoken id s) = true := by
  unfold hasBeenSpoken markAsSpoken
  rw [jsMem_jsSetInsert]
  simp [jsSameValueZero_str_self]

theorem hasBeenSpoken_markAsSpoken_mono {x : String} {s : List Json}
    (id : String) (h : hasBeenSpoken x s = true) :
    hasBeenSpoken x (markAsSpoken id s) = true := by
  unfold hasBeenSpoken markAsSpoken at *
  rw [jsMem_jsSetInsert, h]
  rfl

theorem hasBeenSpoken_map_str (ids : List String) (id : String) :
    hasBeenSpoken id (ids.map Json.str) = ids.contains id := by
  induction ids with
  | nil => rfl
  | cons a t ih =>
    unfold hasBeenSpoken jsMem at *
    simp only [List.map_cons, List.any_cons, List.contains_cons, ih]
    rw [jsSameValueZero_str]

/-- The invariant of a JavaScript `Set`'s backing list: no two members compare
equal under SameValueZero. -/
def JsSetInv (s : List Json) : Prop :=
  s.Pairwise (fun a b => jsSameValueZero a b = false)

theorem jsSetInsert_inv {x : Json} {s : List Json} (h : JsSetInv s) :
    JsSetInv (jsSetInsert x s) := by
  unfold jsSetInsert
  by_cases hx : jsMem x s
  · simpa [hx] using h
  · rw [if_neg hx]
    unfold JsSetInv
    rw [List.pairwise_append]
    refine ⟨h, by simp, ?_⟩
    intro a ha b hb
    simp only [List.mem_singleton] at hb
    have hxa : jsSameValueZero x a = false := by
      by_contra hc
      rw [Bool.not_eq_false] at hc
      exact hx (by unfold jsMem; rw [List.any_eq_true]; exact ⟨a, ha, hc⟩)
    rw [hb, jsSameValueZero_comm]
    exact hxa

theorem count_sv_of_mem (t : Json) :
    ∀ s : List Json, JsSetInv s → jsMem t s = true →
      (s.filter (fun x => jsSameValueZero x t)).length = 1 := by
  intro s
  induction s with
  | nil => intro _ h; simp [jsMem] at h
  | cons a rest ih =>
    intro hinv hmem
    rcases List.pairwise_cons.mp hinv with ⟨hhead, htail⟩
    by_cases hat : jsSameValueZero a t = true
    · rcases jsSameValueZero_eq hat with rfl
      have hnone : ∀ x ∈ rest, jsSameValueZero x a = false := by
        intro x hx
        rw [jsSameValueZero_comm]
        exact hhead x hx
      rw [List.filter_cons_of_pos (by simpa using hat)]
      rw [List.filter_eq_nil_iff.mpr (by intro x hx; simpa using hnone x hx)]
      rfl
    · have hat' : jsSameValueZero a t = false := Bool.eq_false_iff.mpr hat
      rw [List.filter_cons_of_neg (by simpa using hat')]
      apply ih htail
      unfold jsMem at hmem ⊢
      simp only [List.any_cons] at hmem
      rcases Bool.or_eq_true_iff.mp hmem with h | h
      · rw [jsSameValueZero_comm] at h
        exact absurd h hat
      · exact h

theorem count_sv_append_self (t : Json) (htt : jsSameValueZero t t = true)
    (s : List Json) (hmem : jsMem t s = false) :
    ((s ++ [t]).filter (fun x => jsSameValueZero x t)).length = 1 := by
  rw [List.filter_append]
  have hnil : s.filter (fun x => jsSameValueZero x t) = [] := by
    rw [List.filter_eq_nil_iff]
    intro x hx
    unfold jsMem at hmem
    rw [List.any_eq_false] at hmem
    have hx' := hmem x hx
    rw [jsSameValueZero_comm] at hx'
    simpa using hx'
  rw [hnil]
  simp [htt]

/-- C6: persisting the in-memory set and reloading it reproduces exactly the
same membership: after the round trip every id of the original set is reported
announced and no other id is — stated for every set state and, specifically,
for an arbitrary (unicode) list of string ids. -/
theorem dedup_roundtrip :
    (∀ (s : List Json) (id : String),
      hasBeenSpoken id (loadSpokenAlerts (.content (saveSpokenAlerts s))) =
        hasBeenSpoken id s)
    ∧ (∀ (ids : List String) (id : String),
      hasBeenSpoken id
          (loadSpokenAlerts (.content (saveSpokenAlerts (ids.map Json.str)))) =
        ids.contains id) := by
  constructor
  · intro s id
    unfold loadSpokenAlerts saveSpokenAlerts hasBeenSpoken
    exact jsMem_jsSetOfList s _
  · intro ids id
    unfold loadSpokenAlerts saveSpokenAlerts hasBeenSpoken
    rw [jsMem_jsSetOfList]
    exact hasBeenSpoken_map_str ids id

/-- C7 (counterexample): the claim says storage holding valid structure of the
wrong shape — not a sequence of strings — yields an empty in-memory set; but
for the JSON array `[1]`, which is not a sequence of strings, `load` populates
the set with the number `1`, so the set is not empty. -/
theorem load_wrong_shape_counterexample :
    loadSpokenAlerts (.content (.arr [.num 1])) = [.num 1] ∧
      loadSpokenAlerts (.content (.arr [.num 1])) ≠ [] := by
  constructor
  · rfl
  · have h : loadSpokenAlerts (.content (.arr [.num 1])) = [.num 1] := rfl
    rw [h]
    simp

/-- C7 (amended): `load` is total — for every possible storage content it
returns without raising; absent, unreadable or invalid-JSON storage and any
parsed non-array value initialize the set empty; a parsed array initializes
the set with exactly the array's members (even when they are not strings),
which leaves `hasBeenSpoken` queries unaffected for ids not in the array. -/
theorem load_recovery :
    loadSpokenAlerts .absent = []
    ∧ loadSpokenAlerts .unreadable = []
    ∧ loadSpokenAlerts .invalidJson = []
    ∧ (∀ j : Json, isJsonArray j = false → loadSpokenAlerts (.content j) = [])
    ∧ (∀ (l : List Json) (x : Json),
        jsMem x (loadSpokenAlerts (.content (.arr l))) = jsMem x l) := by
  refine ⟨rfl, rfl, rfl, ?_, ?_⟩
  · intro j hj
    cases j <;> simp_all [isJsonArray, loadSpokenAlerts, jsSetOfList]
  · intro l x
    unfold loadSpokenAlerts
    exact jsMem_jsSetOfList l x

/-- C8: marking is idempotent: after `markAsSpoken(id)` the query
`hasBeenSpoken(id)` is true; a second marking leaves the set unchanged, with
unchanged length; the persisted sequence holds exactly one entry for the id
and stays duplicate-free. -/
theorem markAsSpoken_idempotent (id : String) (s : List Json)
    (hinv : JsSetInv s) :
    hasBeenSpoken id (markAsSpoken id s) = true
    ∧ markAsSpoken id (markAsSpoken id s) = markAsSpoken id s
    ∧ (markAsSpoken id (markAsSpoken id s)).length = (markAsSpoken id s).length
    ∧ ((markAsSpoken id s).filter
        (fun x => jsSameValueZero x (.str id))).length = 1
    ∧ JsSetInv (markAsSpoken id s) := by
  have hafter : hasBeenSpoken id (markAsSpoken id s) = true :=
    hasBeenSpoken_markAsSpoken_self id s
  have hidem : markAsSpoken id (markAsSpoken id s) = markAsSpoken id s := by
    have h : jsMem (Json.str id) (markAsSpoken id s) = true := hafter
    show jsSetInsert (Json.str id) (markAsSpoken id s) = markAsSpoken id s
    unfold jsSetInsert
    rw [if_pos h]
  refine ⟨hafter, hidem, by rw [hidem], ?_, jsSetInsert_inv hinv⟩
  unfold markAsSpoken jsSetInsert
  by_cases hmem : jsMem (Json.str id) s
  · rw [if_pos hmem]
    exact count_sv_of_mem _ s hinv hmem
  · rw [if_neg hmem]
    exact count_sv_append_self _ (jsSameValueZero_str_self id) s
      (Bool.eq_false_iff.mpr hmem)

/-- C8 witness: a concrete application — marking "urn:test:1" in the
singleton set `{"urn:test:0"}`. -/
theorem markAsSpoken_idempotent_witness :
    hasBeenSpoken "urn:test:1"
        (markAsSpoken "urn:test:1" [Json.str "urn:test:0"]) = true
    ∧ markAsSpoken "urn:test:1"
          (markAsSpoken "urn:test:1" [Json.str "urn:test:0"]) =
        markAsSpoken "urn:test:1" [Json.str "urn:test:0"]
    ∧ ((markAsSpoken "urn:test:1" [Json.str "urn:test:0"]).filter
        (fun x => jsSameValueZero x (.str "urn:test:1"))).length = 1 := by
  have h := markAsSpoken_idempotent "urn:test:1" [Json.str "urn:test:0"]
    (by unfold JsSetInv; simp)
  exact ⟨h.1, h.2.1, h.2.2.2.1⟩

/-! ## Warning filter theorems (C5) -/

/-- C5: the filter returns exactly and only the entries whose category equals
"Tornado Warning" — a case-sensitive exact match — preserving relative order
(the output is a sublist of the input); an empty input yields an empty output;
entries with missing/null category metadata, and entries of any other
category such as "Tornado Watch", are dropped. -/
theorem filterTornadoWarnings_spec (features : List AlertFeature) :
    (filterTornadoWarnings features).Sublist features
    ∧ (∀ f, f ∈ filterTornadoWarnings features ↔
        f ∈ features ∧ eventOf f = some "Tornado Warning")
    ∧ filterTornadoWarnings [] = []
    ∧ (∀ f, f.properties = none → f ∉ filterTornadoWarnings features)
    ∧ (∀ f, eventOf f = some "Tornado Watch" →
        f ∉ filterTornadoWarnings features) := by
  have hmem : ∀ f, f ∈ filterTornadoWarnings features ↔
      f ∈ features ∧ eventOf f = some "Tornado Warning" := by
    intro f
    unfold filterTornadoWarnings
    rw [List.mem_filter]
    constructor
    · rintro ⟨h1, h2⟩
      exact ⟨h1, by simpa using h2⟩
    · rintro ⟨h1, h2⟩
      exact ⟨h1, by simpa using h2⟩
  refine ⟨List.filter_sublist _, hmem, rfl, ?_, ?_⟩
  · intro f hf hmem'
    have h := ((hmem f).mp hmem').2
    unfold eventOf at h
    rw [hf] at h
    simp at h
  · intro f hf hmem'
    have h := ((hmem f).mp hmem').2
    rw [hf] at h
    simp at h

/-- C5 witness: a mixed input — one warning, one watch, one feature with null
properties — keeps exactly the warning. -/
theorem filterTornadoWarnings_spec_witness :
    (filterTornadoWarnings
        [{ id := "w1", properties := some
            { event := some "Tornado Warning", areaDesc := none,
              effective := none, expires := none, headline := none,
              description := none } },
         { id := "w2", properties := some
            { event := some "Tornado Watch", areaDesc := none,
              effective := none, expires := none, headline := none,
              description := none } },
         { id := "w3", properties := none }]).map AlertFeature.id = ["w1"] := by
  have h := filterTornadoWarnings_spec
    [{ id := "w1", properties := some
        { event := some "Tornado Warning", areaDesc := none,
          effective := none, expires := none, headline := none,
          description := none } },
     { id := "w2", properties := some
        { event := some "Tornado Watch", areaDesc := none,
          effective := none, expires := none, headline := none,
          description := none } },
     { id := "w3", properties := none }]
  rcases h with ⟨-, -, -, -, -⟩
  rfl

/-! ## Alert source client theorems (C2, C4) -/

theorem range_map_backoff (a j : Nat) :
    (List.range (j + 1)).map (fun i => BASE_DELAY_MS * 2 ^ (a + i)) =
      (BASE_DELAY_MS * 2 ^ a) ::
        (List.range j).map (fun i => BASE_DELAY_MS * 2 ^ (a + 1 + i)) := by
  rw [List.range_succ_eq_map, List.map_cons, List.map_map]
  refine congrArg₂ _ (by rw [Nat.add_zero]) ?_
  apply List.map_congr_left
  intro i _
  show BASE_DELAY_MS * 2 ^ (a + (i + 1)) = BASE_DELAY_MS * 2 ^ (a + 1 + i)
  rw [Nat.add_right_comm a 1 i]
  rfl

theorem fetchAlerts_schedule {oracle : Nat → FetchOutcome}
    {fs : Option (List AlertFeature)} :
    ∀ (j a : Nat), a + j ≤ MAX_RETRIES →
      (∀ i, a ≤ i → i < a + j → (oracle i).isTransientFailure = true) →
      oracle (a + j) = .success fs →
      fetchAlerts oracle a =
        { features := fs.getD [], attempts := j + 1,
          delays := (List.range j).map
            (fun i => BASE_DELAY_MS * 2 ^ (a + i)) } := by
  intro j
  induction j with
  | zero =>
    intro a _ _ hsucc
    rw [Nat.add_zero] at hsucc
    rw [fetchAlerts_success hsucc]
    rfl
  | succ j ih =>
    intro a hle hfail hsucc
    have hfa : (oracle a).isTransientFailure = true :=
      hfail a (Nat.le_refl a) (by omega)
    have hlt : a < MAX_RETRIES := by
      simp only [MAX_RETRIES] at hle ⊢
      omega
    rw [fetchAlerts_fail_retry hfa hlt]
    have hrec := ih (a + 1) (by omega)
      (fun i h1 h2 => hfail i (by omega) (by omega))
      (by rw [show a + 1 + j = a + (j + 1) by omega]; exact hsucc)
    rw [hrec, range_map_backoff]

/-- C2: on transient failures `fetchAlerts` retries with exponential backoff
`BASE_DELAY_MS * 2^attempt`, attempts numbered from 0, capped at
`MAX_RETRIES = 5` retries (at most 6 attempts for every failure pattern); for
`k ≤ 5` consecutive transient failures followed by a success, exactly `k + 1`
attempts run and the awaited delays are `base, 2*base, …, 2^(k-1)*base`. -/
theorem fetch_backoff_schedule (oracle : Nat → FetchOutcome) (k : Nat)
    (fs : Option (List AlertFeature)) (hk : k ≤ MAX_RETRIES)
    (hfail : ∀ i, i < k → (oracle i).isTransientFailure = true)
    (hsucc : oracle k = .success fs) :
    (fetchAlerts oracle 0).attempts = k + 1
    ∧ (fetchAlerts oracle 0).delays =
        (List.range k).map (fun i => BASE_DELAY_MS * 2 ^ i) := by
  have h := fetchAlerts_schedule k 0 (by omega)
    (fun i h1 h2 => hfail i (by omega)) (by simpa using hsucc)
  rw [h]
  exact ⟨rfl, by simp⟩

/-- The failure pattern of the witness for C2: network errors on the first
two attempts, then a success with no features. -/
def demoFetchOracle : Nat → FetchOutcome
  | 0 => .netError
  | 1 => .httpError 500
  | _ => .success (some [])

/-- C2 witness: two failures then a success give 3 attempts with delays
5000 ms and 10000 ms. -/
theorem fetch_backoff_schedule_witness :
    (fetchAlerts demoFetchOracle 0).attempts = 3
    ∧ (fetchAlerts demoFetchOracle 0).delays = [5000, 10000] := by
  have h := fetch_backoff_schedule demoFetchOracle 2 (some [])
    (by decide) (by decide) rfl
  exact ⟨h.1, by rw [h.2]; rfl⟩

theorem fetchAlerts_allfail {oracle : Nat → FetchOutcome}
    (hfail : ∀ i, i ≤ MAX_RETRIES → (oracle i).isTransientFailure = true) :
    ∀ (j a : Nat), a + j = MAX_RETRIES →
      fetchAlerts oracle a =
        { features := [], attempts := j + 1,
          delays := (List.range j).map
            (fun i => BASE_DELAY_MS * 2 ^ (a + i)) } := by
  intro j
  induction j with
  | zero =>
    intro a ha
    rw [Nat.add_zero] at ha
    rw [fetchAlerts_fail_exhausted (hfail a (by omega)) (by omega)]
    rfl
  | succ j ih =>
    intro a ha
    have hlt : a < MAX_RETRIES := by omega
    rw [fetchAlerts_fail_retry (hfail a (by omega)) hlt]
    rw [ih (a + 1) (by omega), range_map_backoff]

/-- C4: `fetchAlerts` never raises to its caller: when all 6 attempts fail it
returns the empty list (after exactly `MAX_RETRIES + 1 = 6` attempts), and a
successful response whose payload has no `features` field also yields the
empty list. -/
theorem fetch_never_raises (oracle : Nat → FetchOutcome) :
    ((∀ i, i ≤ MAX_RETRIES → (oracle i).isTransientFailure = true) →
      (fetchAlerts oracle 0).features = []
      ∧ (fetchAlerts oracle 0).attempts = MAX_RETRIES + 1)
    ∧ (oracle 0 = .success none →
        fetchAlerts oracle 0 =
          { features := [], attempts := 1, delays := [] }) := by
  constructor
  · intro hfail
    rw [fetchAlerts_allfail hfail MAX_RETRIES 0 (by omega)]
    exact ⟨rfl, rfl⟩
  · intro h
    rw [fetchAlerts_success h]
    rfl

/-- C4 witness: an always-failing oracle yields no features, and a success
with a missing `features` field yields no features. -/
theorem fetch_never_raises_witness :
    (fetchAlerts (fun _ => .netError) 0).features = []
    ∧ (fetchAlerts (fun _ => .success none) 0).features = [] := by
  refine ⟨((fetch_never_raises (fun _ => .netError)).1 (by decide)).1, ?_⟩
  rw [(fetch_never_raises (fun _ => .success none)).2 rfl]

/-! ## Speech gate theorems (C3, C10) -/

theorem speak_denied {rl : Int} {st : GateState} {now : Int}
    (o : NotifierOutcome) (h : now - st.lastSpeechTime < rl) :
    speak rl st now o = (st, .denied) := by
  unfold speak
  rw [if_pos h]

theorem speak_allowed {rl : Int} {st : GateState} {now : Int}
    (o : NotifierOutcome) (h : ¬ now - st.lastSpeechTime < rl) :
    speak rl st now o = ({ lastSpeechTime := now }, .spoke o) := by
  unfold speak
  rw [if_neg h]

theorem runSpeaks_times (rl : Int) :
    ∀ (atts : List (Int × NotifierOutcome)) (st : GateState),
      ((runSpeaks rl st atts).2).map Prod.fst = atts.map Prod.fst := by
  intro atts
  induction atts with
  | nil => intro st; rfl
  | cons a rest ih =>
    intro st
    rcases a with ⟨now, o⟩
    show (((now, (speak rl st now o).2) :: _ : List (Int × SpeechEvent)).map
      Prod.fst) = _
    rw [List.map_cons, ih]
    rfl

theorem permittedTimes_sublist (log : List (Int × SpeechEvent)) :
    (permittedTimes log).Sublist (log.map Prod.fst) :=
  List.Sublist.map Prod.fst (List.filter_sublist log)

theorem runSpeaks_chain_gap (rl : Int) :
    ∀ (atts : List (Int × NotifierOutcome)) (st : GateState),
      List.Chain' (fun a b => rl ≤ b - a)
        (st.lastSpeechTime :: permittedTimes (runSpeaks rl st atts).2) := by
  intro atts
  induction atts with
  | nil => intro st; simp [runSpeaks, permittedTimes]
  | cons a rest ih =>
    intro st
    rcases a with ⟨now, o⟩
    by_cases h : now - st.lastSpeechTime < rl
    · show List.Chain' _ (st.lastSpeechTime ::
        permittedTimes ((now, (speak rl st now o).2) ::
          (runSpeaks rl (speak rl st now o).1 rest).2))
      rw [speak_denied o h]
      have : permittedTimes ((now, SpeechEvent.denied) ::
          (runSpeaks rl st rest).2) = permittedTimes (runSpeaks rl st rest).2 := by
        unfold permittedTimes
        rw [List.filter_cons_of_neg (by simp [SpeechEvent.isSpoke])]
      rw [this]
      exact ih st
    · show List.Chain' _ (st.lastSpeechTime ::
        permittedTimes ((now, (speak rl st now o).2) ::
          (runSpeaks rl (speak rl st now o).1 rest).2))
      rw [speak_allowed o h]
      have hperm : permittedTimes ((now, SpeechEvent.spoke o) ::
          (runSpeaks rl { lastSpeechTime := now } rest).2) =
          now :: permittedTimes
            (runSpeaks rl { lastSpeechTime := now } rest).2 := by
        unfold permittedTimes
        rw [List.filter_cons_of_pos (by rfl)]
        rfl
      rw [hperm]
      rw [List.chain'_cons]
      exact ⟨by omega, ih { lastSpeechTime := now }⟩

theorem runSpeaks_lastSpeechTime (rl : Int) :
    ∀ (atts : List (Int × NotifierOutcome)) (st : GateState),
      (runSpeaks rl st atts).1.lastSpeechTime =
        ((permittedTimes (runSpeaks rl st atts).2).getLast?).getD
          st.lastSpeechTime := by
  intro atts
  induction atts with
  | nil => intro st; rfl
  | cons a rest ih =>
    intro st
    rcases a with ⟨now, o⟩
    by_cases h : now - st.lastSpeechTime < rl
    · show (runSpeaks rl (speak rl st now o).1 rest).1.lastSpeechTime =
        ((permittedTimes ((now, (speak rl st now o).2) ::
          (runSpeaks rl (speak rl st now o).1 rest).2)).getLast?).getD
            st.lastSpeechTime
      rw [speak_denied o h]
      have : permittedTimes ((now, SpeechEvent.denied) ::
          (runSpeaks rl st rest).2) = permittedTimes (runSpeaks rl st rest).2 := by
        unfold permittedTimes
        rw [List.filter_cons_of_neg (by simp [SpeechEvent.isSpoke])]
      rw [this]
      exact ih st
    · show (runSpeaks rl (speak rl st now o).1 rest).1.lastSpeechTime =
        ((permittedTimes ((now, (speak rl st now o).2) ::
          (runSpeaks rl (speak rl st now o).1 rest).2)).getLast?).getD
            st.lastSpeechTime
      rw [speak_allowed o h]
      have hperm : permittedTimes ((now, SpeechEvent.spoke o) ::
          (runSpeaks rl { lastSpeechTime := now } rest).2) =
          now :: permittedTimes
            (runSpeaks rl { lastSpeechTime := now } rest).2 := by
        unfold permittedTimes
        rw [List.filter_cons_of_pos (by rfl)]
        rfl
      rw [hperm, ih { lastSpeechTime := now }]
      rcases hp : permittedTimes (runSpeaks rl { lastSpeechTime := now } rest).2
        with _ | ⟨b, l⟩
      · rfl
      · rw [List.getLast?_cons_cons]
        rcases hx : (b :: l).getLast? with _ | x
        · exact absurd hx (by simp)
        · rfl

theorem chain'_and {α : Type} {R S : α → α → Prop} :
    ∀ {l : List α}, List.Chain' R l → List.Chain' S l →
      List.Chain' (fun a b => R a b ∧ S a b) l
  | [], _, _ => List.chain'_nil
  | [_], _, _ => List.chain'_singleton _
  | _ :: _ :: _, hR, hS => by
    rw [List.chain'_cons] at hR hS ⊢
    exact ⟨⟨hR.1, hS.1⟩, chain'_and hR.2 hS.2⟩

/-- C3: a `speak` attempt inside the rate-limit window is denied with the
gate state untouched (the message is dropped, never queued); an allowed
attempt stores `now` whatever the Notifier then does; consequently, over any
attempt sequence with non-decreasing timestamps, any two permitted attempts
start at least `rl` apart. -/
theorem speech_gate_spacing (rl : Int) (st : GateState)
    (atts : List (Int × NotifierOutcome))
    (hmono : List.Pairwise (· ≤ ·) (atts.map Prod.fst)) :
    (∀ (now : Int) (o : NotifierOutcome), now - st.lastSpeechTime < rl →
      speak rl st now o = (st, .denied))
    ∧ (∀ (now : Int) (o : NotifierOutcome), rl ≤ now - st.lastSpeechTime →
      (speak rl st now o).1.lastSpeechTime = now)
    ∧ List.Pairwise (fun a b => rl ≤ b - a)
        (permittedTimes (runSpeaks rl st atts).2) := by
  refine ⟨fun now o h => speak_denied o h,
    fun now o h => by rw [speak_allowed o (by omega)], ?_⟩
  have hsub : (permittedTimes (runSpeaks rl st atts).2).Sublist
      (atts.map Prod.fst) := by
    have h1 := permittedTimes_sublist (runSpeaks rl st atts).2
    rwa [runSpeaks_times rl atts st] at h1
  have hmono' : List.Pairwise (· ≤ ·)
      (permittedTimes (runSpeaks rl st atts).2) := hmono.sublist hsub
  have hgap : List.Chain' (fun a b => rl ≤ b - a)
      (permittedTimes (runSpeaks rl st atts).2) :=
    (runSpeaks_chain_gap rl atts st).tail
  have hcomb : List.Chain' (fun a b : Int => rl ≤ b - a ∧ a ≤ b)
      (permittedTimes (runSpeaks rl st atts).2) :=
    chain'_and hgap hmono'.chain'
  haveI : IsTrans Int (fun a b : Int => rl ≤ b - a ∧ a ≤ b) :=
    ⟨fun a b c hab hbc => ⟨by omega, by omega⟩⟩
  have hpair := List.chain'_iff_pairwise.mp hcomb
  exact hpair.imp (fun h => h.1)

/-- C3 witness: with a 10-tick window and attempts at times 0, 5 and 12, the
permitted attempts are 0 and 12, which are at least 10 apart. -/
theorem speech_gate_spacing_witness :
    List.Pairwise (fun a b : Int => (10 : Int) ≤ b - a)
      (permittedTimes (runSpeaks 10 { lastSpeechTime := -100 }
        [((0 : Int), NotifierOutcome.success),
         ((5 : Int), NotifierOutcome.failure),
         ((12 : Int), NotifierOutcome.success)]).2) :=
  (speech_gate_spacing 10 { lastSpeechTime := -100 }
    [((0 : Int), NotifierOutcome.success),
     ((5 : Int), NotifierOutcome.failure),
     ((12 : Int), NotifierOutcome.success)] (by decide)).2.2

/-- C10: a denied `speak` leaves the gate state unchanged and initiates no
synthesis or playback; the gate's clock after any run equals the start time
of the last permitted attempt (or its prior value when none was permitted),
so denied attempts never extend or reset the lockout window. -/
theorem denied_attempt_frame (rl : Int) :
    (∀ (st : GateState) (now : Int) (o : NotifierOutcome),
      now - st.lastSpeechTime < rl → speak rl st now o = (st, .denied))
    ∧ (∀ (st : GateState) (atts : List (Int × NotifierOutcome)),
      (runSpeaks rl st atts).1.lastSpeechTime =
        ((permittedTimes (runSpeaks rl st atts).2).getLast?).getD
          st.lastSpeechTime)
    ∧ (∀ (st : GateState) (atts : List (Int × NotifierOutcome)),
      permittedTimes (runSpeaks rl st atts).2 = [] →
        (runSpeaks rl st atts).1 = st) := by
  refine ⟨fun st now o h => speak_denied o h,
    fun st atts => runSpeaks_lastSpeechTime rl atts st, ?_⟩
  intro st atts hnone
  have h := runSpeaks_lastSpeechTime rl atts st
  rw [hnone] at h
  have h' : (runSpeaks rl st atts).1.lastSpeechTime = st.lastSpeechTime := h
  cases hrs : (runSpeaks rl st atts).1
  cases st
  rw [hrs] at h'
  simp only at h'
  rw [h']

/-! ## Orchestrator theorems (C1) -/

theorem countNotified_cons (id : String) (ev : CycleEvent)
    (log : List CycleEvent) :
    countNotified id (ev :: log) =
      (if isNotifyFor id ev then 1 else 0) + countNotified id log := by
  unfold countNotified
  rw [List.filter_cons]
  split
  · rw [List.length_cons]
    omega
  · omega

theorem countNotified_append (id : String) (l1 l2 : List CycleEvent) :
    countNotified id (l1 ++ l2) = countNotified id l1 + countNotified id l2 := by
  unfold countNotified
  rw [List.filter_append, List.length_append]

theorem processWarning_skip {rl : Int} {st : AppState} {w : AlertFeature}
    (now : Int) (o : NotifierOutcome)
    (h : hasBeenSpoken w.id st.spokenAlertIds = true) :
    processWarning rl st w now o = (st, .skippedDup w.id) := by
  unfold processWarning
  rw [if_pos h]

theorem processWarning_notdup {rl : Int} {st : AppState} {w : AlertFeature}
    (now : Int) (o : NotifierOutcome)
    (h : hasBeenSpoken w.id st.spokenAlertIds = false) :
    processWarning rl st w now o =
      ({ spokenAlertIds := markAsSpoken w.id st.spokenAlertIds,
         gate := (speak rl st.gate now o).1 },
       match (speak rl st.gate now o).2 with
       | .denied => .rateLimited w.id
       | .spoke o' => .notified w.id o') := by
  unfold processWarning
  rw [if_neg (by simp [h])]

theorem processWarning_marks (rl : Int) (st : AppState) (w : AlertFeature)
    (now : Int) (o : NotifierOutcome) :
    hasBeenSpoken w.id (processWarning rl st w now o).1.spokenAlertIds
      = true := by
  by_cases h : hasBeenSpoken w.id st.spokenAlertIds
  · rw [processWarning_skip now o h]
    exact h
  · rw [processWarning_notdup now o (Bool.eq_false_iff.mpr h)]
    exact hasBeenSpoken_markAsSpoken_self w.id st.spokenAlertIds

theorem processWarning_mono {rl : Int} {st : AppState} {w : AlertFeature}
    {x : String} (now : Int) (o : NotifierOutcome)
    (h : hasBeenSpoken x st.spokenAlertIds = true) :
    hasBeenSpoken x (processWarning rl st w now o).1.spokenAlertIds = true := by
  by_cases hd : hasBeenSpoken w.id st.spokenAlertIds
  · rw [processWarning_skip now o hd]
    exact h
  · rw [processWarning_notdup now o (Bool.eq_false_iff.mpr hd)]
    exact hasBeenSpoken_markAsSpoken_mono w.id h

theorem processWarning_notify_fresh {rl : Int} {st : AppState}
    {w : AlertFeature} {id : String} (now : Int) (o : NotifierOutcome)
    (h : isNotifyFor id (processWarning rl st w now o).2 = true) :
    w.id = id ∧ hasBeenSpoken w.id st.spokenAlertIds = false := by
  by_cases hd : hasBeenSpoken w.id st.spokenAlertIds
  · rw [processWarning_skip now o hd] at h
    simp [isNotifyFor] at h
  · rw [processWarning_notdup now o (Bool.eq_false_iff.mpr hd)] at h
    rcases hsp : (speak rl st.gate now o).2 with _ | o'
    · rw [hsp] at h
      simp [isNotifyFor] at h
    · rw [hsp] at h
      simp only [isNotifyFor] at h
      exact ⟨by simpa using h, Bool.eq_false_iff.mpr hd⟩

theorem pollLoop_mono {rl : Int} {id : String} :
    ∀ (l : List (AlertFeature × Int × NotifierOutcome)) (st : AppState),
      hasBeenSpoken id st.spokenAlertIds = true →
        hasBeenSpoken id (pollLoop rl st l).1.spokenAlertIds = true := by
  intro l
  induction l with
  | nil => intro st h; exact h
  | cons a rest ih =>
    intro st h
    rcases a with ⟨w, now, o⟩
    exact ih _ (processWarning_mono now o h)

theorem pollLoop_notify_zero {rl : Int} {id : String} :
    ∀ (l : List (AlertFeature × Int × NotifierOutcome)) (st : AppState),
      hasBeenSpoken id st.spokenAlertIds = true →
        countNotified id (pollLoop rl st l).2 = 0 := by
  intro l
  induction l with
  | nil => intro st _; rfl
  | cons a rest ih =>
    intro st h
    rcases a with ⟨w, now, o⟩
    show countNotified id ((processWarning rl st w now o).2 ::
      (pollLoop rl (processWarning rl st w now o).1 rest).2) = 0
    rw [countNotified_cons]
    have hev : isNotifyFor id (processWarning rl st w now o).2 = false := by
      by_contra hc
      rw [Bool.not_eq_false] at hc
      rcases processWarning_notify_fresh now o hc with ⟨heq, hfresh⟩
      rw [heq] at hfresh
      rw [h] at hfresh
      cases hfresh
    rw [hev]
    simp only [Bool.false_eq_true, if_false, Nat.zero_add]
    exact ih _ (processWarning_mono now o h)

theorem pollLoop_marks_of_notify {rl : Int} {id : String} :
    ∀ (l : List (AlertFeature × Int × NotifierOutcome)) (st : AppState),
      1 ≤ countNotified id (pollLoop rl st l).2 →
        hasBeenSpoken id (pollLoop rl st l).1.spokenAlertIds = true := by
  intro l
  induction l with
  | nil =>
    intro st h
    simp [pollLoop, countNotified] at h
  | cons a rest ih =>
    intro st h
    rcases a with ⟨w, now, o⟩
    rcases hev : isNotifyFor id (processWarning rl st w now o).2 with _ | _
    · show hasBeenSpoken id
        (pollLoop rl (processWarning rl st w now o).1 rest).1.spokenAlertIds
          = true
      apply ih
      have hc : countNotified id ((processWarning rl st w now o).2 ::
          (pollLoop rl (processWarning rl st w now o).1 rest).2) =
          countNotified id
            (pollLoop rl (processWarning rl st w now o).1 rest).2 := by
        rw [countNotified_cons, hev]
        simp
      exact le_of_le_of_eq h hc
    · rcases processWarning_notify_fresh now o hev with ⟨heq, -⟩
      show hasBeenSpoken id
        (pollLoop rl (processWarning rl st w now o).1 rest).1.spokenAlertIds
          = true
      apply pollLoop_mono rest _
      rw [← heq]
      exact processWarning_marks rl st w now o

theorem pollLoop_at_most_once {rl : Int} {id : String} :
    ∀ (l : List (AlertFeature × Int × NotifierOutcome)) (st : AppState),
      countNotified id (pollLoop rl st l).2 ≤ 1 := by
  intro l
  induction l with
  | nil => intro st; exact Nat.zero_le 1
  | cons a rest ih =>
    intro st
    rcases a with ⟨w, now, o⟩
    show countNotified id ((processWarning rl st w now o).2 ::
      (pollLoop rl (processWarning rl st w now o).1 rest).2) ≤ 1
    rw [countNotified_cons]
    rcases hev : isNotifyFor id (processWarning rl st w now o).2 with _ | _
    · simpa using ih (processWarning rl st w now o).1
    · rcases processWarning_notify_fresh now o hev with ⟨heq, -⟩
      have hafter : hasBeenSpoken id
          (processWarning rl st w now o).1.spokenAlertIds = true := by
        rw [← heq]
        exact processWarning_marks rl st w now o
      rw [pollLoop_notify_zero rest _ hafter]
      simp

theorem runCycles_mono {rl : Int} {id : String} :
    ∀ (cycles : List (List AlertFeature × List (Int × NotifierOutcome)))
      (st : AppState),
      hasBeenSpoken id st.spokenAlertIds = true →
        hasBeenSpoken id (runCycles rl st cycles).1.spokenAlertIds = true := by
  intro cycles
  induction cycles with
  | nil => intro st h; exact h
  | cons c rest ih =>
    intro st h
    rcases c with ⟨features, env⟩
    exact ih _ (pollLoop_mono _ _ h)

theorem runCycles_notify_zero {rl : Int} {id : String} :
    ∀ (cycles : List (List AlertFeature × List (Int × NotifierOutcome)))
      (st : AppState),
      hasBeenSpoken id st.spokenAlertIds = true →
        countNotified id (runCycles rl st cycles).2 = 0 := by
  intro cycles
  induction cycles with
  | nil => intro st _; rfl
  | cons c rest ih =>
    intro st h
    rcases c with ⟨features, env⟩
    show countNotified id ((pollOnce rl st features env).2 ++
      (runCycles rl (pollOnce rl st features env).1 rest).2) = 0
    rw [countNotified_append]
    have h1 : countNotified id (pollOnce rl st features env).2 = 0 :=
      pollLoop_notify_zero _ _ h
    have h2 : countNotified id
        (runCycles rl (pollOnce rl st features env).1 rest).2 = 0 :=
      ih _ (pollLoop_mono _ _ h)
    rw [h1, h2]

theorem runCycles_at_most_once {rl : Int} {id : String} :
    ∀ (cycles : List (List AlertFeature × List (Int × NotifierOutcome)))
      (st : AppState),
      countNotified id (runCycles rl st cycles).2 ≤ 1 := by
  intro cycles
  induction cycles with
  | nil => intro st; exact Nat.zero_le 1
  | cons c rest ih =>
    intro st
    rcases c with ⟨features, env⟩
    show countNotified id ((pollOnce rl st features env).2 ++
      (runCycles rl (pollOnce rl st features env).1 rest).2) ≤ 1
    rw [countNotified_append]
    rcases Nat.eq_zero_or_pos
      (countNotified id (pollOnce rl st features env).2) with hz | hp
    · rw [hz]
      simpa using ih (pollOnce rl st features env).1
    · have h1 : countNotified id (pollOnce rl st features env).2 ≤ 1 :=
        pollLoop_at_most_once _ _
      have hmarked : hasBeenSpoken id
          (pollOnce rl st features env).1.spokenAlertIds = true :=
        pollLoop_marks_of_notify _ _ hp
      rw [runCycles_notify_zero rest _ hmarked]
      omega

/-- C1: per cycle, a warning whose id is already in the dedup set is skipped
before any gate request or Notifier invocation; a warning not yet in the set
is marked announced after its processing whatever the gate and Notifier did;
and across any whole run, for any fixed id the Notifier is invoked at most
once, and never if the id was already marked at startup. -/
theorem at_most_once_delivery (rl : Int) (init : AppState)
    (cycles : List (List AlertFeature × List (Int × NotifierOutcome)))
    (id : String) :
    countNotified id (runCycles rl init cycles).2 ≤ 1
    ∧ (hasBeenSpoken id init.spokenAlertIds = true →
        countNotified id (runCycles rl init cycles).2 = 0)
    ∧ (∀ (st : AppState) (w : AlertFeature) (now : Int) (o : NotifierOutcome),
        hasBeenSpoken w.id st.spokenAlertIds = true →
          processWarning rl st w now o = (st, .skippedDup w.id))
    ∧ (∀ (st : AppState) (w : AlertFeature) (now : Int) (o : NotifierOutcome),
        hasBeenSpoken w.id (processWarning rl st w now o).1.spokenAlertIds
          = true) :=
  ⟨runCycles_at_most_once cycles init,
   fun h => runCycles_notify_zero cycles init h,
   fun _ _ now o h => processWarning_skip now o h,
   fun st w now o => processWarning_marks rl st w now o⟩

/-- The warning used by the C1 witness run. -/
def demoWarning : AlertFeature :=
  { id := "urn:w1", properties := some
      { event := some "Tornado Warning", areaDesc := some "Jefferson",
        effective := none, expires := none, headline := some "TW",
        description := none } }

/-- C1 witness: the same warning arriving in two consecutive cycles is
notified at most once. -/
theorem at_most_once_delivery_witness :
    countNotified "urn:w1"
      (runCycles 60000 { spokenAlertIds := [], gate := { lastSpeechTime := 0 } }
        [([demoWarning], [((100000 : Int), NotifierOutcome.success)]),
         ([demoWarning], [((400000 : Int), NotifierOutcome.success)])]).2 ≤ 1 :=
  (at_most_once_delivery 60000
    { spokenAlertIds := [], gate := { lastSpeechTime := 0 } }
    [([demoWarning], [((100000 : Int), NotifierOutcome.success)]),
     ([demoWarning], [((400000 : Int), NotifierOutcome.success)])]
    "urn:w1").1

/-! ## Shutdown theorem (C9) -/

/-- C9 (code bug): `shutdown()` does set the shutdown flag, clear the pending
timer and record a zero exit status — but it exits at once: evaluated in a
state whose cycle is in `processing` with a Notifier call in flight, the exit
status is recorded while `notifierInFlight` is still true and the phase is
still `processing`, so the in-flight Notifier call and the processing cycle
are aborted rather than allowed to finish. -/
theorem shutdown_exits_mid_processing :
    shutdown midSpeechState =
      { isShuttingDown := true, pollTimer := false, phase := .processing,
        notifierInFlight := true, exited := some 0 }
    ∧ (shutdown midSpeechState).isShuttingDown = true
    ∧ (shutdown midSpeechState).pollTimer = false
    ∧ (shutdown midSpeechState).exited = some 0
    ∧ (shutdown midSpeechState).notifierInFlight = true
    ∧ (shutdown midSpeechState).phase = .processing :=
  ⟨rfl, rfl, rfl, rfl, rfl, rfl⟩

/-! ## Remaining witnesses -/

/-- C6 witness: a concrete round trip with unicode ids. -/
theorem dedup_roundtrip_witness :
    hasBeenSpoken "торнадо-01"
      (loadSpokenAlerts (.content (saveSpokenAlerts
        (["торнадо-01", "龍捲風-02"].map Json.str)))) = true := by
  rw [dedup_roundtrip.2 ["торнадо-01", "龍捲風-02"] "торнадо-01"]
  rfl

/-- C7 witness: the amended statement applied to a parsed object and a
parsed string, both non-arrays. -/
theorem load_recovery_witness :
    loadSpokenAlerts (.content (.obj [("a", .num 1)])) = []
    ∧ loadSpokenAlerts (.content (.str "oops")) = [] :=
  ⟨load_recovery.2.2.2.1 (.obj [("a", .num 1)]) rfl,
   load_recovery.2.2.2.1 (.str "oops") rfl⟩

/-- C10 witness: a concrete denied attempt (3 ticks after the last speech,
window 10) leaves the gate state unchanged. -/
theorem denied_attempt_frame_witness :
    speak 10 { lastSpeechTime := 100 } 103 NotifierOutcome.success =
      ({ lastSpeechTime := 100 }, .denied) :=
  (denied_attempt_frame 10).1 { lastSpeechTime := 100 } 103
    NotifierOutcome.success (by decide)

end TornadoAlerts
